import Mathlib

/-!
Verification of the topologicpy wrapper layer (src/Cell.py, src/Vector.py,
src/Honeybee.py) against its natural-language specification.

The geometric kernel objects are shallowly embedded: vertices carry exact
rational coordinates (standing in for the floating-point coordinates of the
kernel), edges are ordered vertex pairs, wires and faces are edge lists, and
a cell records the face list handed to the solid-from-faces constructor.
Python try/except control flow is embedded in the `Except Unit` monad: a
kernel call that raises maps to `.error ()`, a caught exception to the code
of the matching except branch.  Kernel acceptance behaviour that the wrapper
does not determine (whether a boundary wire is accepted as a face, whether a
face set closes into a solid) is kept abstract in a `Kernel` parameter, per
spec section 6 (dual failure channel at the kernel boundary).
-/

/-- A kernel vertex (`topologic.Vertex`): exact rational coordinates stand in
for the floating-point coordinates held by the kernel. -/
structure Vertex where
  x : ℚ
  y : ℚ
  z : ℚ
deriving DecidableEq, Repr

/-- A kernel edge (`topologic.Edge`): an ordered pair of endpoints. -/
structure Edge where
  startVertex : Vertex
  endVertex : Vertex
deriving DecidableEq, Repr

/-- A wire is the ordered list of its edges, as enumerated by `wire.Edges`. -/
abbrev Wire := List Edge

/-- A face is recorded by its external boundary wire
(`topologic.Face.ByExternalBoundary`). -/
abbrev Face := List Edge

/-- A kernel cell, recorded by the face list submitted to
`topologic.Cell.ByFaces`. -/
structure Cell where
  faces : List Face
deriving DecidableEq, Repr

/-- Kernel acceptance behaviour left abstract (spec section 6): `faceOk`
says whether `topologic.Face.ByExternalBoundary` accepts a boundary wire
(raising otherwise), `cellOk` whether `topologic.Cell.ByFaces` closes the
submitted faces into a solid (returning a null handle otherwise). -/
structure Kernel where
  faceOk : List Edge → Bool
  cellOk : List Face → Bool

/-- Kernel edge construction `topologic.Edge.ByStartVertexEndVertex`: the
kernel rejects a degenerate zero-length edge, i.e. raises exactly when the
two endpoints coincide (spec section 4.1); modelled as `none` in that case. -/
def Edge.ByStartVertexEndVertex (a b : Vertex) : Option Edge :=
  if a = b then none else some ⟨a, b⟩

/-- Kernel face construction `topologic.Face.ByExternalBoundary` applied to
`topologic.Wire.ByEdges`: accepts or raises according to the abstract kernel
acceptance predicate. -/
def Face.ByExternalBoundary (K : Kernel) (w : List Edge) : Except Unit Face :=
  if K.faceOk w then .ok w else .error ()

/-- Kernel solid construction as wrapped by `Cell.ByFaces` (src/Cell.py
74-99): the wrapper passes the face list to `topologic.Cell.ByFaces` and
returns the cell, or `None` when the kernel cannot close a solid.  (The
`isinstance` check of the wrapper is outside this typed model: the argument
here is always a list of faces, which the identity filter keeps intact.) -/
def Cell.ByFaces (K : Kernel) (fl : List Face) : Option Cell :=
  if K.cellOk fl then some ⟨fl⟩ else none

/-- Fan triangles over a boundary vertex list (helper for
`Face.Triangulate`). -/
def fanFaces (v0 : Vertex) : List Vertex → List Face
  | a :: b :: rest => [⟨v0, a⟩, ⟨a, b⟩, ⟨b, v0⟩] :: fanFaces v0 (b :: rest)
  | _ => []

/-- Modelled from the spec: `topologicpy.Face.Triangulate` (file Face.py is
part of this repository but not under src/).  Spec section 4.2: the loft
assembler "collects bottom/top caps (optionally triangulated)".  Modelled as
a fan triangulation over the boundary vertices of the face; total. -/
def Face.Triangulate (f : Face) : List Face :=
  match f.map Edge.startVertex with
  | [] => []
  | v0 :: rest => fanFaces v0 rest

/-- One corresponding edge pair of the edge matcher in triangulated mode
(src/Cell.py 276-300).  `e3` is the start-to-start side edge, `e4` the
end-to-end side edge; each construction is tried with a fallback that builds
the other side edge and a triangle inside a nested try (so a kernel
rejection of that triangle face is swallowed).  When both side edges exist,
the diagonal `e5` from the start of `e1` to the end of `e2` is built outside
any try (line 298), so its failure propagates, as does a kernel rejection of
either of the two triangles built from it (lines 299-300). -/
def matchPairTriangulated (K : Kernel) (e1 e2 : Edge) : Except Unit (List Face) :=
  match Edge.ByStartVertexEndVertex e1.startVertex e2.startVertex,
        Edge.ByStartVertexEndVertex e1.endVertex e2.endVertex with
  | some e3, some e4 =>
      match Edge.ByStartVertexEndVertex e1.startVertex e2.endVertex with
      | none => .error ()
      | some e5 => do
          let f1 ← Face.ByExternalBoundary K [e1, e5, e4]
          let f2 ← Face.ByExternalBoundary K [e2, e5, e3]
          .ok [f1, f2]
  | some e3, none =>
      .ok (if K.faceOk [e1, e2, e3] then [[e1, e2, e3]] else [])
  | none, some e4 =>
      .ok (if K.faceOk [e1, e2, e4] then [[e1, e2, e4]] else [])
  | none, none => .ok []

/-- One corresponding edge pair of the edge matcher in untriangulated mode
(src/Cell.py 301-329).  When both side edges exist, the quadrilateral
`[e1, e4, e2, e3]` is tried first; if the kernel rejects it, the alternative
ordering `[e1, e3, e2, e4]` is built outside any try (line 325), so its
rejection propagates.  When exactly one side edge exists, a triangle is
built outside any try (lines 326-329). -/
def matchPairQuad (K : Kernel) (e1 e2 : Edge) : Except Unit (List Face) :=
  match Edge.ByStartVertexEndVertex e1.startVertex e2.startVertex,
        Edge.ByStartVertexEndVertex e1.endVertex e2.endVertex with
  | some e3, some e4 =>
      if K.faceOk [e1, e4, e2, e3] then .ok [[e1, e4, e2, e3]]
      else do
        let f ← Face.ByExternalBoundary K [e1, e3, e2, e4]
        .ok [f]
  | some e3, none => do
      let f ← Face.ByExternalBoundary K [e1, e3, e2]
      .ok [f]
  | none, some e4 => do
      let f ← Face.ByExternalBoundary K [e1, e4, e2]
      .ok [f]
  | none, none => .ok []

/-- The inner loop of `Cell.ByWires` over the corresponding edge pairs of
two consecutive wires of equal edge count (the index loop
`for j in range(len(w1_edges))`, zipped since the lengths were checked). -/
def bridgeFacesAux (K : Kernel) (triangulate : Bool) :
    List (Edge × Edge) → Except Unit (List Face)
  | [] => .ok []
  | (e1, e2) :: rest => do
      let fs ← if triangulate then matchPairTriangulated K e1 e2
               else matchPairQuad K e1 e2
      let more ← bridgeFacesAux K triangulate rest
      .ok (fs ++ more)

/-- All bridging faces between two consecutive wires of equal edge count. -/
def matchWirePair (K : Kernel) (triangulate : Bool) (w1 w2 : Wire) :
    Except Unit (List Face) :=
  bridgeFacesAux K triangulate (w1.zip w2)

/-- The pairwise loop of `Cell.ByWires` (src/Cell.py 265-329): for each pair
of consecutive wires, first the edge counts are compared — a mismatch makes
the whole call return `None` (line 274) — then the bridging faces of the
pair are collected.  `none` is the early null return; a raised kernel
exception propagates as `.error ()`. -/
def loftBridgeFaces (K : Kernel) (triangulate : Bool) :
    List Wire → Except Unit (Option (List Face))
  | w1 :: w2 :: rest =>
      if w1.length = w2.length then do
        let fs ← matchWirePair K triangulate w1 w2
        let orest ← loftBridgeFaces K triangulate (w2 :: rest)
        .ok (orest.map (fun more => fs ++ more))
      else .ok none
  | _ => .ok (some [])

/-- Loft construction `Cell.ByWires` (src/Cell.py 227-330).  Caps from the
first and last wire (line 257; an empty wire list would raise an IndexError
at `wires[0]`), an extra first-wire cap when closing (line 259), optional
cap triangulation (lines 260-264), then the pairwise bridging loop, and the
final submission of the face set to `Cell.ByFaces` (line 330).  The
`tolerance` argument only reaches the kernel call and is absorbed in the
abstract kernel. -/
def Cell.ByWires (K : Kernel) (wires : List Wire) (close triangulate : Bool) :
    Except Unit (Option Cell) :=
  match wires with
  | [] => .error ()
  | w0 :: ws => do
      let cap0 ← Face.ByExternalBoundary K w0
      let capL ← Face.ByExternalBoundary K ((w0 :: ws).getLast (by simp))
      let caps := if close then [cap0, capL, cap0] else [cap0, capL]
      let caps := if triangulate then (caps.map Face.Triangulate).flatten else caps
      let obridge ← loftBridgeFaces K triangulate (w0 :: ws)
      match obridge with
      | none => .ok none
      | some bf => .ok (Cell.ByFaces K (caps ++ bf))

/-- A dynamically typed argument to `Cell.ByWiresCluster`: either a cluster,
carrying the wires its `Wires` enumeration yields, or any other object. -/
inductive TopologyArg where
  | clusterOfWires (ws : List Wire) : TopologyArg
  | nonCluster : TopologyArg
deriving DecidableEq, Repr

/-- Loft from a cluster, `Cell.ByWiresCluster` (src/Cell.py 332-363): a
non-cluster argument fails the `isinstance` check and yields `None`
(line 360); otherwise the call on line 363 forwards the wires, `close` and
`tolerance` but omits `triangulate`, so `Cell.ByWires` runs with its default
`triangulate=True`.  The `triangulate` binder here is therefore unused,
exactly as in the source. -/
def Cell.ByWiresCluster (K : Kernel) (cluster : TopologyArg)
    (close triangulate : Bool) : Except Unit (Option Cell) :=
  match cluster with
  | .nonCluster => .ok none
  | .clusterOfWires ws => Cell.ByWires K ws close true


/-- Lowercase a string character by character (the Python `str.lower()` on
the ASCII strings compared here), embedded over the character list so that
it reduces in the kernel. -/
def lowerStr (s : String) : String := String.mk (s.data.map Char.toLower)

/-- Drop the first `n` characters of a string (Python slicing from index
`n`), embedded over the character list. -/
def dropStr (s : String) (n : ℕ) : String := String.mk (s.data.drop n)

/-- Length of a string in characters (Python `len`). -/
def lenStr (s : String) : ℕ := s.data.length

/-- Computable minimum on the rationals (the Python builtin `min`), written
with an explicit comparison so that it reduces in the kernel. -/
def ratMin (a b : ℚ) : ℚ := if a ≤ b then a else b

/-- Computable maximum on the rationals (the Python builtin `max`). -/
def ratMax (a b : ℚ) : ℚ := if a ≤ b then b else a

/-- Computable absolute value on the rationals (the Python builtin `abs`). -/
def ratAbs (a : ℚ) : ℚ := if a < 0 then -a else a

/-- The squared magnitude of a direction vector (the code computes
`dist = math.sqrt(dx**2 + dy**2 + dz**2)`; working with the square keeps the
embedding in exact rational arithmetic). -/
def distSq (dx dy dz : ℚ) : ℚ := dx^2 + dy^2 + dz^2

/-- Symbolic value of the inclination angle `theta` of the orientation step:
either the forced zero of the small-magnitude branch, or
`degrees(acos(dz / sqrt dSq))`, recorded by the exact pair `(dz, dSq)` since
the value itself is irrational in general. -/
inductive Theta where
  | forcedZero : Theta
  | acosDeg : ℚ → ℚ → Theta
deriving DecidableEq, Repr

/-- Symbolic value of the azimuth `phi = degrees(atan2 dy dx)`, recorded by
the exact pair `(dy, dx)`. -/
structure PhiRep where
  dy : ℚ
  dx : ℚ
deriving DecidableEq, Repr

/-- The pair of rotation angles the orientation step derives. -/
structure OrientAngles where
  theta : Theta
  phi : PhiRep
deriving DecidableEq, Repr

/-- Whether the `acos` branch was taken (it is the only branch that
evaluates an inverse cosine). -/
def Theta.acosEvaluated : Theta → Bool
  | .forcedZero => false
  | .acosDeg _ _ => true

/-- The argument `dz / dist` of the evaluated `acos` lies in the domain
`[-1, 1]`: with `dist = sqrt dSq > 0` this is exactly `dz^2 ≤ dSq`. -/
def Theta.argWithinDomain : Theta → Bool
  | .forcedZero => true
  | .acosDeg dz dSq => decide (0 < dSq ∧ dz^2 ≤ dSq)

/-- The represented angle is exactly zero: `degrees(acos(dz / sqrt dSq)) = 0`
holds precisely when the argument is `1`, i.e. `dz = sqrt dSq`, i.e.
`0 < dz` and `dz^2 = dSq`. -/
def Theta.isZeroAngle : Theta → Bool
  | .forcedZero => true
  | .acosDeg dz dSq => decide (0 < dz ∧ dz^2 = dSq)

/-- The represented azimuth is exactly zero: `atan2 dy dx = 0` holds
precisely when `dy = 0` and `dx ≥ 0` (the Python convention
`atan2(0, 0) = 0` is included). -/
def PhiRep.isZeroAngle (p : PhiRep) : Bool :=
  decide (p.dy = 0 ∧ 0 ≤ p.dx)

/-- The placement/orientation rotation-angle block repeated verbatim in
every primitive constructor (src/Cell.py: Cone 523-537, Cylinder 613-627,
Hyperboloid 902-916, Prism 1208-1222, Sphere 1339-1353, Torus 1428-1442):
a target point at `origin + (dirX, dirY, dirZ)` gives the difference vector
`(dx, dy, dz)`, `phi = degrees(atan2(dy, dx))`, and
`theta = degrees(acos(dz/dist))` unless `dist < 0.0001`, in which case
`theta = 0`.  The comparison `dist < 0.0001` on the nonnegative square root
is embedded as `distSq < (1/10000)^2`. -/
def orientationStep (origin : Vertex) (dirX dirY dirZ : ℚ) : OrientAngles :=
  let x1 := origin.x
  let y1 := origin.y
  let z1 := origin.z
  let x2 := origin.x + dirX
  let y2 := origin.y + dirY
  let z2 := origin.z + dirZ
  let dx := x2 - x1
  let dy := y2 - y1
  let dz := z2 - z1
  let dSq := dx^2 + dy^2 + dz^2
  { theta := if dSq < (1/10000 : ℚ)^2 then .forcedZero else .acosDeg dz dSq,
    phi := ⟨dy, dx⟩ }

/-- Placement offsets of `Cell.Prism` (src/Cell.py 1186-1193), applied to
the eight corner vertices before construction: the placement string is
compared case-insensitively; "center" lowers the base by half the height,
"lowerleft" moves the footprint by half the width and half the length, any
other value leaves all three offsets at zero. -/
def prismOffsets (width length height : ℚ) (placement : String) : ℚ × ℚ × ℚ :=
  if lowerStr placement = "center" then (0, 0, -height * (1/2))
  else if lowerStr placement = "lowerleft" then (width * (1/2), length * (1/2), 0)
  else (0, 0, 0)

/-- Placement offsets of `Cell.Cone` (src/Cell.py 469-479). -/
def coneOffsets (baseRadius topRadius height : ℚ) (placement : String) :
    ℚ × ℚ × ℚ :=
  if lowerStr placement = "center" then (0, 0, -height * (1/2))
  else if lowerStr placement = "lowerleft" then
    (ratMax baseRadius topRadius, ratMax baseRadius topRadius, 0)
  else (0, 0, 0)

/-- Placement offsets of `Cell.Cylinder` (src/Cell.py 586-593). -/
def cylinderOffsets (radius height : ℚ) (placement : String) : ℚ × ℚ × ℚ :=
  if lowerStr placement = "center" then (0, 0, -height * (1/2))
  else if lowerStr placement = "lowerleft" then (radius, radius, 0)
  else (0, 0, 0)

/-- Placement offsets of `Cell.Hyperboloid` (src/Cell.py 877-884). -/
def hyperboloidOffsets (baseRadius topRadius height : ℚ) (placement : String) :
    ℚ × ℚ × ℚ :=
  if lowerStr placement = "center" then (0, 0, -height * (1/2))
  else if lowerStr placement = "lowerleft" then
    (ratMax baseRadius topRadius, ratMax baseRadius topRadius, 0)
  else (0, 0, 0)

/-- Placement translation of `Cell.Sphere` (src/Cell.py 1335-1338): the
sphere is built centered on the origin, and afterwards "bottom" translates
it up by the radius, "lowerleft" by the radius along all three axes, while
"center" and any other value apply no translation at all. -/
def sphereTranslation (radius : ℚ) (placement : String) : ℚ × ℚ × ℚ :=
  if lowerStr placement = "bottom" then (0, 0, radius)
  else if lowerStr placement = "lowerleft" then (radius, radius, radius)
  else (0, 0, 0)

/-- Placement translation of `Cell.Torus` (src/Cell.py 1424-1427): built
centered, then "bottom" translates up by the major radius, "lowerleft" by
the major radius in x and y and the minor radius in z, anything else not at
all. -/
def torusTranslation (majorRadius minorRadius : ℚ) (placement : String) :
    ℚ × ℚ × ℚ :=
  if lowerStr placement = "bottom" then (0, 0, majorRadius)
  else if lowerStr placement = "lowerleft" then
    (majorRadius, majorRadius, minorRadius)
  else (0, 0, 0)

/-- A face as seen by `Cell.Decompose`: the kernel supplies its normal
(`Face.NormalAtParameters`) and its centroid (`f.Centroid()`); both are kept
as exact rational data on the model face. -/
structure DFace where
  normal : ℚ × ℚ × ℚ
  centroid : Vertex
deriving DecidableEq, Repr

/-- Dot product of two 3-vectors (`np.dot` inside `Vector.Angle`,
src/Vector.py 32). -/
def Vector.dot3 (a b : ℚ × ℚ × ℚ) : ℚ :=
  a.1 * b.1 + a.2.1 * b.2.1 + a.2.2 * b.2.2

/-- Squared euclidean norm of the cross product of two 3-vectors
(`la.norm(np.cross(vectorA, vectorB))` inside `Vector.Angle`,
src/Vector.py 33, squared to stay rational). -/
def Vector.crossNormSq (a b : ℚ × ℚ × ℚ) : ℚ :=
  (a.2.1 * b.2.2 - a.2.2 * b.2.1)^2
    + (a.2.2 * b.1 - a.1 * b.2.2)^2
    + (a.1 * b.2.1 - a.2.1 * b.1)^2

/-- Exact-value embedding of `Vector.Angle` (src/Vector.py 8-34), which
returns `round(degrees(atan2(s, c)), 4)` with `c` the dot product and
`s = ‖a × b‖ ≥ 0`.  The trigonometric value is irrational in general; it is
an exact quarter-turn multiple precisely in the three decidable cases below
(where the float code also returns exactly 0.0, 90.0 or 180.0, rounding
included), and the embedding is `none` elsewhere. -/
def Vector.AngleExact (a b : ℚ × ℚ × ℚ) : Option ℚ :=
  let c := Vector.dot3 a b
  let s2 := Vector.crossNormSq a b
  if s2 = 0 ∧ 0 < c then some 0
  else if c = 0 ∧ 0 < s2 then some 90
  else if s2 = 0 ∧ c < 0 then some 180
  else none

/-- The `angleCode` classifier of `Cell.Decompose` (src/Cell.py 666-677),
taking the already-computed angle between the face normal and the up vector:
code 0 within `tiltAngle` of 90 (vertical), 1 within `tiltAngle` of 0
(up-facing horizontal), 2 within `tiltAngle` of 180 (down-facing
horizontal), 3 otherwise (inclined).  The `round(ang, 2)` of line 668 is the
identity on the exact quarter-turn values this embedding produces. -/
def angleCode (ang tiltAngle : ℚ) : ℕ :=
  if ratAbs (ang - 90) < tiltAngle then 0
  else if ratAbs ang < tiltAngle then 1
  else if ratAbs (ang - 180) < tiltAngle then 2
  else 3

/-- The face partition returned by `Cell.Decompose` (the four face lists of
the result dictionary; the four aperture lists, which merely collect the
apertures attached to the faces of each class, are not modelled). -/
structure DecomposeDict where
  verticalFaces : List DFace
  topHorizontalFaces : List DFace
  bottomHorizontalFaces : List DFace
  inclinedFaces : List DFace
deriving DecidableEq, Repr

/-- Classification loop of `Cell.Decompose` (src/Cell.py 705-727), with the
face list already enumerated and `zMin`/`zMax` computed.  Returns `none`
when the angle of some face normal against the up vector is not an exact
quarter-turn multiple (outside the exact embedding of `Vector.Angle`). -/
def decomposeLoop (tiltAngle tolerance zMin zMax : ℚ) :
    List DFace → Option DecomposeDict
  | [] => some ⟨[], [], [], []⟩
  | f :: rest => do
      let ang ← Vector.AngleExact f.normal (0, 0, 1)
      let d ← decomposeLoop tiltAngle tolerance zMin zMax rest
      match angleCode ang tiltAngle with
      | 0 => some { d with verticalFaces := f :: d.verticalFaces }
      | 1 =>
        if ratAbs (f.centroid.z - zMin) < tolerance then
          some { d with bottomHorizontalFaces := f :: d.bottomHorizontalFaces }
        else
          some { d with topHorizontalFaces := f :: d.topHorizontalFaces }
      | 2 =>
        if ratAbs (f.centroid.z - zMax) < tolerance then
          some { d with topHorizontalFaces := f :: d.topHorizontalFaces }
        else
          some { d with bottomHorizontalFaces := f :: d.bottomHorizontalFaces }
      | _ => some { d with inclinedFaces := f :: d.inclinedFaces }

/-- Face decomposition `Cell.Decompose` (src/Cell.py 633-738) on the face
list of a cell: `tiltAngle` is replaced by its absolute value (line 697),
`zMin` and `zMax` are the extremes of the face centroid heights (lines
699-703; an empty face list would raise at `min(zList)`, hence `none`), the
up vector is fixed to `(0,0,1)` (line 704), and each face is classified by
`angleCode` with the top/bottom disambiguation of lines 708-727.  The
`isinstance` guard of line 687 sits before the face enumeration and is not
reached in this model, whose input is already the face list of a cell. -/
def Cell.Decompose (faces : List DFace) (tiltAngle tolerance : ℚ) :
    Option DecomposeDict :=
  match faces with
  | [] => none
  | f0 :: rest =>
      let zMin := rest.foldl (fun m f => ratMin m f.centroid.z) f0.centroid.z
      let zMax := rest.foldl (fun m f => ratMax m f.centroid.z) f0.centroid.z
      decomposeLoop (ratAbs tiltAngle) tolerance zMin zMax (f0 :: rest)

/-- Modelled from the spec and the kernel contract: the six faces of an
axis-aligned unit box (corner at the origin), with the outward unit normals
and centroids that `Face.NormalAtParameters` and `Centroid` return for it.
Order: bottom, top, then the four side faces. -/
def unitBoxFaces : List DFace :=
  [⟨(0, 0, -1), ⟨1/2, 1/2, 0⟩⟩,
   ⟨(0, 0, 1), ⟨1/2, 1/2, 1⟩⟩,
   ⟨(1, 0, 0), ⟨1, 1/2, 1/2⟩⟩,
   ⟨(-1, 0, 0), ⟨0, 1/2, 1/2⟩⟩,
   ⟨(0, 1, 0), ⟨1/2, 1, 1/2⟩⟩,
   ⟨(0, -1, 0), ⟨1/2, 0, 1/2⟩⟩]

/-- A cell as seen by the metric helpers: the kernel face areas
(`FaceUtility.Area` per face) and the kernel volume (`CellUtility.Volume`),
as exact rationals. -/
structure MetricCell where
  faceAreas : List ℚ
  volume : ℚ
deriving DecidableEq, Repr

/-- Symbolic sphericity value
`(pi^(1/3) * (6*volume)^(2/3)) / area` (src/Cell.py 397), recorded by the
exact pair since the value itself is irrational; the `round(..., mantissa)`
of line 400 is dropped with it. -/
structure Sphericity where
  area : ℚ
  volume : ℚ
deriving DecidableEq, Repr

/-- Compactness metric `Cell.Compactness` (src/Cell.py 366-400): sums the
absolute face areas, takes the absolute volume, and either returns the
sphericity or — when the area is not positive — raises an `Exception`
(line 399), which nothing catches. -/
def Cell.Compactness (c : MetricCell) : Except String Sphericity :=
  let area := (c.faceAreas.map ratAbs).sum
  let volume := ratAbs c.volume
  if 0 < area then .ok ⟨area, volume⟩
  else .error "Error: Cell.Compactness: Cell surface area is not positive"

/-- A file system for the export helper: an association list from paths to
file contents, newest entry first. -/
abbrev FS := List (String × String)

/-- Content of the file at a path, `none` when no file exists there. -/
def FS.read (fs : FS) (p : String) : Option String :=
  List.lookup p fs

/-- Create or replace the file at a path. -/
def FS.write (fs : FS) (p c : String) : FS :=
  (p, c) :: fs

/-- Extension fixup of `Honeybee.ExportToHBJSON` (src/Honeybee.py 82-84):
when the last seven characters, lowercased, are not ".hbjson", the suffix
".hbjson" is appended.  (The Python slice `path[len(path)-7:len(path)]` on a
shorter string clamps to the whole string, as `dropStr` with truncated
subtraction does.) -/
def Honeybee.adjustExt (path : String) : String :=
  let ext := dropStr path (lenStr path - 7)
  if lowerStr ext = ".hbjson" then path else path ++ ".hbjson"

/-- Export helper `Honeybee.ExportToHBJSON` (src/Honeybee.py 61-97):
`modelJson` stands for the serialization `model.to_dict()` that
`json.dump` writes.  With `overwrite=True` the file is opened in mode "w"
(create or truncate); with `overwrite=False` in mode "x", which fails when
the file exists — the caught failure is re-raised as an `Exception` naming
the path (line 92), and nothing has been written.  On success the
serialization is written and `True` is returned (the `return False` of
line 97 is unreachable: a successful open always yields a truthy handle). -/
def Honeybee.ExportToHBJSON (fs : FS) (modelJson path : String)
    (overwrite : Bool) : Except String (FS × Bool) :=
  let p := Honeybee.adjustExt path
  if overwrite then .ok (FS.write fs p modelJson, true)
  else
    match FS.read fs p with
    | some _ =>
        .error ("Error: Could not create a new file at the following location: " ++ p)
    | none => .ok (FS.write fs p modelJson, true)

/-- Vertices of an edge list (a wire or a face boundary), in edge order. -/
def edgeListVertices (es : List Edge) : List Vertex :=
  es.flatMap (fun e => [e.startVertex, e.endVertex])

/-- The vertex set of a wire. -/
def Wire.VertexSet (w : Wire) : Finset Vertex :=
  (edgeListVertices w).toFinset

/-- The vertex set of a cell: the vertices of all its faces (the kernel
enumeration `cell.Vertices`). -/
def Cell.VertexSet (c : Cell) : Finset Vertex :=
  (c.faces.flatMap edgeListVertices).toFinset

/-- The quadrilateral bridging face `[e1, e4, e2, e3]` built for a
corresponding edge pair in untriangulated mode (src/Cell.py 323): the pair
edges bridged by the end-to-end and start-to-start side edges. -/
def quadFace (p : Edge × Edge) : Face :=
  [p.1, ⟨p.1.endVertex, p.2.endVertex⟩, p.2, ⟨p.1.startVertex, p.2.startVertex⟩]

/-- C10: `Cell.ByWiresCluster` never forwards its `triangulate` argument:
on a cluster of wires it returns exactly what `Cell.ByWires` returns with
`triangulate = true` (the omitted default), for either value of the
argument, so the output does not depend on it and lofting is always
triangulated. -/
theorem byWiresCluster_ignores_triangulate (K : Kernel) (ws : List Wire)
    (close t1 t2 : Bool) :
    Cell.ByWiresCluster K (TopologyArg.clusterOfWires ws) close t1 =
      Cell.ByWires K ws close true ∧
    Cell.ByWiresCluster K (TopologyArg.clusterOfWires ws) close t1 =
      Cell.ByWiresCluster K (TopologyArg.clusterOfWires ws) close t2 :=
  ⟨rfl, rfl⟩

/-- C8: `Cell.Decompose` on the six faces of an axis-aligned unit box with
tilt angle 10 and the default tolerance classifies exactly the four side
faces as vertical, exactly the one face with centroid height `zMax = 1` as
top-horizontal, exactly the one face with centroid height `zMin = 0` as
bottom-horizontal, and no face as inclined; all six centroid heights lie
between those two extremes. -/
theorem decompose_unit_box :
    Cell.Decompose unitBoxFaces 10 (1/10000) =
      some { verticalFaces :=
               [⟨(1, 0, 0), ⟨1, 1/2, 1/2⟩⟩,
                ⟨(-1, 0, 0), ⟨0, 1/2, 1/2⟩⟩,
                ⟨(0, 1, 0), ⟨1/2, 1, 1/2⟩⟩,
                ⟨(0, -1, 0), ⟨1/2, 0, 1/2⟩⟩],
             topHorizontalFaces := [⟨(0, 0, 1), ⟨1/2, 1/2, 1⟩⟩],
             bottomHorizontalFaces := [⟨(0, 0, -1), ⟨1/2, 1/2, 0⟩⟩],
             inclinedFaces := [] } ∧
    (∀ f ∈ unitBoxFaces, (0 : ℚ) ≤ f.centroid.z ∧ f.centroid.z ≤ 1) := by
  constructor
  · norm_num [Cell.Decompose, decomposeLoop, Vector.AngleExact, Vector.dot3,
      Vector.crossNormSq, angleCode, ratAbs, ratMin, ratMax, unitBoxFaces]
  · norm_num [unitBoxFaces]

/-- C4: in the orientation step shared verbatim by every primitive
constructor, a direction vector of squared magnitude below `(1e-4)^2`
(i.e. magnitude below `1e-4`) forces `theta = 0` without evaluating the
inverse cosine, and whenever the inverse cosine is evaluated its argument
`dz/dist` lies in `[-1, 1]` (expressed exactly: `dist > 0` and
`dz^2 ≤ dist^2`), so no domain error can occur. -/
theorem orientation_acos_domain_safe (origin : Vertex) (dirX dirY dirZ : ℚ) :
    (distSq dirX dirY dirZ < (1/10000 : ℚ)^2 →
      (orientationStep origin dirX dirY dirZ).theta = Theta.forcedZero ∧
      (orientationStep origin dirX dirY dirZ).theta.acosEvaluated = false) ∧
    ((1/10000 : ℚ)^2 ≤ distSq dirX dirY dirZ →
      (orientationStep origin dirX dirY dirZ).theta.acosEvaluated = true ∧
      (orientationStep origin dirX dirY dirZ).theta.argWithinDomain = true) := by
  have hkey : (origin.x + dirX - origin.x)^2 + (origin.y + dirY - origin.y)^2
      + (origin.z + dirZ - origin.z)^2 = distSq dirX dirY dirZ := by
    unfold distSq; ring
  constructor
  · intro hlt
    simp only [orientationStep, hkey]
    rw [if_pos hlt]
    exact ⟨rfl, rfl⟩
  · intro hge
    simp only [orientationStep, hkey]
    rw [if_neg (not_lt.mpr hge)]
    refine ⟨rfl, ?_⟩
    simp only [Theta.argWithinDomain, decide_eq_true_eq]
    constructor
    · have : (0 : ℚ) < (1/10000 : ℚ)^2 := by norm_num
      linarith
    · have hz : origin.z + dirZ - origin.z = dirZ := by ring
      rw [hz]
      unfold distSq at *
      nlinarith [sq_nonneg dirX, sq_nonneg dirY]

/-- Witness for C4 at concrete inputs: the zero vector takes the forced-zero
branch and `(3, 0, 4)` takes the evaluated branch with its argument in
domain. -/
theorem orientation_acos_domain_safe_witness :
    ((orientationStep ⟨0, 0, 0⟩ 0 0 0).theta = Theta.forcedZero ∧
      (orientationStep ⟨0, 0, 0⟩ 0 0 0).theta.acosEvaluated = false) ∧
    ((orientationStep ⟨0, 0, 0⟩ 3 0 4).theta.acosEvaluated = true ∧
      (orientationStep ⟨0, 0, 0⟩ 3 0 4).theta.argWithinDomain = true) :=
  ⟨(orientation_acos_domain_safe ⟨0, 0, 0⟩ 0 0 0).1 (by norm_num [distSq]),
   (orientation_acos_domain_safe ⟨0, 0, 0⟩ 3 0 4).2 (by norm_num [distSq])⟩

/-- C6: for every origin, the direction vector `(0, 0, 1)` gives
`theta = 0` (the evaluated inverse cosine of argument `1`) and `phi = 0`
(`atan2(0, 0)`), so the two rotations of the orientation step, about the Y
axis by `theta` and about the Z axis by `phi`, leave the shape unrotated. -/
theorem orientation_up_direction_identity (origin : Vertex) :
    (orientationStep origin 0 0 1).theta.isZeroAngle = true ∧
    (orientationStep origin 0 0 1).phi.isZeroAngle = true := by
  have hx : origin.x + 0 - origin.x = 0 := by ring
  have hy : origin.y + 0 - origin.y = 0 := by ring
  have hz : origin.z + 1 - origin.z = 1 := by ring
  have hcond : ¬((origin.x + 0 - origin.x)^2 + (origin.y + 0 - origin.y)^2
      + (origin.z + 1 - origin.z)^2 < (1/10000 : ℚ)^2) := by
    rw [hx, hy, hz]; norm_num
  simp only [orientationStep, if_neg hcond, Theta.isZeroAngle,
    PhiRep.isZeroAngle, decide_eq_true_eq]
  refine ⟨⟨by rw [hz]; norm_num, ?_⟩, by rw [hy], by rw [hx]⟩
  rw [hx, hy, hz]; norm_num

/-- Counterexample to C5: `Cell.Sphere` with placement "bottom" translates
the built sphere by `(0, 0, radius)` — a nonzero shift, where the claim
says any placement other than "center" and "lowerleft" applies no shift —
and with placement "center" it applies no shift at all, where the claim
says "center" shifts the shape down by half its extent. -/
theorem sphere_bottom_placement_cex :
    sphereTranslation 1 "bottom" = (0, 0, 1) ∧
    ((0, 0, 1) : ℚ × ℚ × ℚ) ≠ (0, 0, 0) ∧
    sphereTranslation 1 "center" = (0, 0, 0) := by
  refine ⟨?_, by decide, ?_⟩ <;> decide

/-- C5 as amended: for the base-anchored constructors (prism, cone,
cylinder, hyperboloid) "center" shifts down by half the height, "lowerleft"
shifts to the minimum-extent corner of the footprint, and any other
placement (including "bottom") applies no shift; the sphere and the torus
are instead built centered on the origin, so "center" and every
unrecognised value apply no shift, "bottom" translates up (by the radius,
resp. the major radius), and "lowerleft" translates by the radius on every
axis (resp. major, major, minor). -/
theorem placement_offsets_by_constructor (w l h r br tr majR minR : ℚ)
    (p : String) :
    (prismOffsets w l h "center" = (0, 0, -h * (1/2)) ∧
     prismOffsets w l h "lowerleft" = (w * (1/2), l * (1/2), 0) ∧
     (lowerStr p ≠ "center" → lowerStr p ≠ "lowerleft" →
       prismOffsets w l h p = (0, 0, 0))) ∧
    (coneOffsets br tr h "center" = (0, 0, -h * (1/2)) ∧
     coneOffsets br tr h "lowerleft" = (ratMax br tr, ratMax br tr, 0) ∧
     (lowerStr p ≠ "center" → lowerStr p ≠ "lowerleft" →
       coneOffsets br tr h p = (0, 0, 0))) ∧
    (cylinderOffsets r h "center" = (0, 0, -h * (1/2)) ∧
     cylinderOffsets r h "lowerleft" = (r, r, 0) ∧
     (lowerStr p ≠ "center" → lowerStr p ≠ "lowerleft" →
       cylinderOffsets r h p = (0, 0, 0))) ∧
    (hyperboloidOffsets br tr h "center" = (0, 0, -h * (1/2)) ∧
     hyperboloidOffsets br tr h "lowerleft" = (ratMax br tr, ratMax br tr, 0) ∧
     (lowerStr p ≠ "center" → lowerStr p ≠ "lowerleft" →
       hyperboloidOffsets br tr h p = (0, 0, 0))) ∧
    (sphereTranslation r "bottom" = (0, 0, r) ∧
     sphereTranslation r "lowerleft" = (r, r, r) ∧
     (lowerStr p ≠ "bottom" → lowerStr p ≠ "lowerleft" →
       sphereTranslation r p = (0, 0, 0))) ∧
    (torusTranslation majR minR "bottom" = (0, 0, majR) ∧
     torusTranslation majR minR "lowerleft" = (majR, majR, minR) ∧
     (lowerStr p ≠ "bottom" → lowerStr p ≠ "lowerleft" →
       torusTranslation majR minR p = (0, 0, 0))) := by
  have hc : lowerStr "center" = "center" := by decide
  have hl : lowerStr "lowerleft" = "lowerleft" := by decide
  have hb : lowerStr "bottom" = "bottom" := by decide
  refine ⟨⟨?_, ?_, fun h1 h2 => ?_⟩, ⟨?_, ?_, fun h1 h2 => ?_⟩,
    ⟨?_, ?_, fun h1 h2 => ?_⟩, ⟨?_, ?_, fun h1 h2 => ?_⟩,
    ⟨?_, ?_, fun h1 h2 => ?_⟩, ⟨?_, ?_, fun h1 h2 => ?_⟩⟩ <;>
    simp_all [prismOffsets, coneOffsets, cylinderOffsets, hyperboloidOffsets,
      sphereTranslation, torusTranslation, hc, hl, hb]

/-- Witness for C5 at concrete inputs: the generic-placement clauses of the
amended statement applied at the unrecognised placement "base". -/
theorem placement_offsets_by_constructor_witness :
    prismOffsets 2 3 4 "base" = (0, 0, 0) ∧
    sphereTranslation 5 "base" = (0, 0, 0) := by
  have h := placement_offsets_by_constructor 2 3 4 5 0 0 0 0 "base"
  exact ⟨h.1.2.2 (by decide) (by decide), h.2.2.2.2.1.2.2 (by decide) (by decide)⟩

/-- Counterexample to C7: `Cell.Compactness` on a cell whose faces all have
zero kernel area raises an `Exception` (src/Cell.py 399) instead of
returning a null result — the claim that every public entry point converts
failures to `None` and never propagates an exception is false. -/
theorem compactness_raises_cex :
    Cell.Compactness ⟨[0, 0], 5⟩ =
      Except.error "Error: Cell.Compactness: Cell surface area is not positive" := by
  norm_num [Cell.Compactness, ratAbs]

/-- C7 as amended: runtime type checks do convert wrong-kind arguments to
`None` (here: `Cell.ByWiresCluster` on a non-cluster argument), but the
convention is not universal — `Cell.Compactness` raises when the summed
surface area is not positive, and `Honeybee.ExportToHBJSON` raises when the
output file cannot be created. -/
theorem null_sentinel_not_universal (K : Kernel) (close tri : Bool)
    (c : MetricCell) (fs : FS) (mj path : String) :
    (Cell.ByWiresCluster K TopologyArg.nonCluster close tri = .ok none) ∧
    ((c.faceAreas.map ratAbs).sum ≤ 0 →
      Cell.Compactness c =
        Except.error "Error: Cell.Compactness: Cell surface area is not positive") ∧
    (FS.read fs (Honeybee.adjustExt path) ≠ none →
      Honeybee.ExportToHBJSON fs mj path false =
        Except.error ("Error: Could not create a new file at the following location: "
          ++ Honeybee.adjustExt path)) := by
  refine ⟨rfl, fun h => ?_, fun h => ?_⟩
  · simp only [Cell.Compactness]
    rw [if_neg (not_lt.mpr h)]
  · simp only [Honeybee.ExportToHBJSON, Bool.false_eq_true, if_false]
    cases hr : FS.read fs (Honeybee.adjustExt path) with
    | none => exact absurd hr h
    | some old => simp [hr]

/-- Witness for C7 at concrete inputs: a non-cluster argument yields `None`,
a zero-area cell makes `Cell.Compactness` raise, and an existing file makes
`Honeybee.ExportToHBJSON` with `overwrite=False` raise. -/
theorem null_sentinel_not_universal_witness :
    (Cell.ByWiresCluster ⟨fun _ => true, fun _ => true⟩ TopologyArg.nonCluster
      false false = .ok none) ∧
    (Cell.Compactness ⟨[0], 1⟩ =
      Except.error "Error: Cell.Compactness: Cell surface area is not positive") ∧
    (Honeybee.ExportToHBJSON [("a.hbjson", "old")] "m" "a.hbjson" false =
      Except.error ("Error: Could not create a new file at the following location: "
        ++ Honeybee.adjustExt "a.hbjson")) := by
  have h := null_sentinel_not_universal ⟨fun _ => true, fun _ => true⟩ false false
    ⟨[0], 1⟩ [("a.hbjson", "old")] "m" "a.hbjson"
  exact ⟨h.1, h.2.1 (by norm_num [ratAbs]), h.2.2 (by decide)⟩

/-- C9: `Honeybee.ExportToHBJSON` with `overwrite=False` raises (writing
nothing) when a file already exists at the target path; with
`overwrite=True` it replaces any existing file at that path; on success it
writes the JSON serialization of the model and returns `True`, and the
written file holds exactly that serialization. -/
theorem exportToHBJSON_overwrite_policy (fs : FS) (mj path : String) :
    (FS.read fs (Honeybee.adjustExt path) ≠ none →
      Honeybee.ExportToHBJSON fs mj path false =
        Except.error ("Error: Could not create a new file at the following location: "
          ++ Honeybee.adjustExt path)) ∧
    (Honeybee.ExportToHBJSON fs mj path true =
      .ok (FS.write fs (Honeybee.adjustExt path) mj, true)) ∧
    (FS.read fs (Honeybee.adjustExt path) = none →
      Honeybee.ExportToHBJSON fs mj path false =
        .ok (FS.write fs (Honeybee.adjustExt path) mj, true)) ∧
    (FS.read (FS.write fs (Honeybee.adjustExt path) mj)
      (Honeybee.adjustExt path) = some mj) := by
  refine ⟨fun h => ?_, rfl, fun h => ?_, ?_⟩
  · simp only [Honeybee.ExportToHBJSON, Bool.false_eq_true, if_false]
    cases hr : FS.read fs (Honeybee.adjustExt path) with
    | none => exact absurd hr h
    | some old => simp [hr]
  · simp only [Honeybee.ExportToHBJSON, Bool.false_eq_true, if_false]
    simp [h]
  · simp [FS.read, FS.write, List.lookup]

/-- Witness for C9 at concrete inputs: an existing file makes the
non-overwriting export raise, and a missing file lets it succeed. -/
theorem exportToHBJSON_overwrite_policy_witness :
    (Honeybee.ExportToHBJSON [("out.hbjson", "old")] "m" "out.hbjson" false =
      Except.error ("Error: Could not create a new file at the following location: "
        ++ Honeybee.adjustExt "out.hbjson")) ∧
    (Honeybee.ExportToHBJSON [] "m" "out" false =
      .ok (FS.write [] (Honeybee.adjustExt "out") "m", true)) :=
  ⟨(exportToHBJSON_overwrite_policy [("out.hbjson", "old")] "m" "out.hbjson").1
      (by decide),
   (exportToHBJSON_overwrite_policy [] "m" "out").2.2.1 (by decide)⟩

/-- Counterexample to C3: a corresponding edge pair whose two side edges
both succeed but whose diagonal (from the start of `e1` to the end of `e2`)
is degenerate — `e1 = (0,0,0)→(1,0,0)` and `e2 = (1,1,0)→(0,0,0)` — makes
the triangulated edge matcher raise an uncaught exception at the diagonal
construction (src/Cell.py 298) instead of emitting two triangular faces. -/
theorem edge_matcher_degenerate_diagonal_cex :
    ((⟨⟨0,0,0⟩, ⟨1,0,0⟩⟩ : Edge).startVertex ≠
      (⟨⟨1,1,0⟩, ⟨0,0,0⟩⟩ : Edge).startVertex) ∧
    ((⟨⟨0,0,0⟩, ⟨1,0,0⟩⟩ : Edge).endVertex ≠
      (⟨⟨1,1,0⟩, ⟨0,0,0⟩⟩ : Edge).endVertex) ∧
    matchPairTriangulated ⟨fun _ => true, fun _ => true⟩
      ⟨⟨0,0,0⟩, ⟨1,0,0⟩⟩ ⟨⟨1,1,0⟩, ⟨0,0,0⟩⟩ = .error () :=
  ⟨by decide, by decide, rfl⟩

/-- C3 as amended: with both side edges constructible and a non-degenerate
diagonal, triangulated mode emits exactly the two triangles split along the
diagonal from the start of `e1` to the end of `e2` (provided the kernel
accepts them); if the diagonal is degenerate the construction raises an
uncaught exception instead; untriangulated mode emits the single quad
`[e1, e4, e2, e3]`, falling back to `[e1, e3, e2, e4]` when the kernel
rejects the first (and raising if it rejects both); and when both side
edges fail, no diagonal construction is attempted and the pair contributes
no face in either mode. -/
theorem edge_matcher_bridging (K : Kernel) (e1 e2 : Edge) :
    (e1.startVertex ≠ e2.startVertex → e1.endVertex ≠ e2.endVertex →
      e1.startVertex ≠ e2.endVertex →
      K.faceOk [e1, ⟨e1.startVertex, e2.endVertex⟩,
        ⟨e1.endVertex, e2.endVertex⟩] = true →
      K.faceOk [e2, ⟨e1.startVertex, e2.endVertex⟩,
        ⟨e1.startVertex, e2.startVertex⟩] = true →
      matchPairTriangulated K e1 e2 =
        .ok [[e1, ⟨e1.startVertex, e2.endVertex⟩, ⟨e1.endVertex, e2.endVertex⟩],
             [e2, ⟨e1.startVertex, e2.endVertex⟩,
              ⟨e1.startVertex, e2.startVertex⟩]]) ∧
    (e1.startVertex ≠ e2.startVertex → e1.endVertex ≠ e2.endVertex →
      e1.startVertex = e2.endVertex →
      matchPairTriangulated K e1 e2 = .error ()) ∧
    (e1.startVertex ≠ e2.startVertex → e1.endVertex ≠ e2.endVertex →
      matchPairQuad K e1 e2 =
        (if K.faceOk (quadFace (e1, e2)) then .ok [quadFace (e1, e2)]
         else if K.faceOk [e1, ⟨e1.startVertex, e2.startVertex⟩, e2,
            ⟨e1.endVertex, e2.endVertex⟩] then
           .ok [[e1, ⟨e1.startVertex, e2.startVertex⟩, e2,
             ⟨e1.endVertex, e2.endVertex⟩]]
         else .error ())) ∧
    (e1.startVertex = e2.startVertex → e1.endVertex = e2.endVertex →
      matchPairTriangulated K e1 e2 = .ok [] ∧ matchPairQuad K e1 e2 = .ok []) := by
  refine ⟨fun h1 h2 h3 h4 h5 => ?_, fun h1 h2 h3 => ?_, fun h1 h2 => ?_,
    fun h1 h2 => ⟨?_, ?_⟩⟩
  · simp only [matchPairTriangulated, Edge.ByStartVertexEndVertex,
      if_neg h1, if_neg h2, if_neg h3, Face.ByExternalBoundary, h4, h5,
      if_true]
    rfl
  · simp only [matchPairTriangulated, Edge.ByStartVertexEndVertex,
      if_neg h1, if_neg h2, if_pos h3]
  · simp only [matchPairQuad, Edge.ByStartVertexEndVertex,
      if_neg h1, if_neg h2, quadFace, Face.ByExternalBoundary]
    by_cases hq : K.faceOk [e1, ⟨e1.endVertex, e2.endVertex⟩, e2,
        ⟨e1.startVertex, e2.startVertex⟩] = true
    · rw [if_pos hq, if_pos hq]
    · rw [if_neg hq, if_neg hq]
      by_cases ha : K.faceOk [e1, ⟨e1.startVertex, e2.startVertex⟩, e2,
          ⟨e1.endVertex, e2.endVertex⟩] = true
      · rw [if_pos ha, if_pos ha]
        rfl
      · rw [if_neg ha, if_neg ha]
        rfl
  · simp only [matchPairTriangulated, Edge.ByStartVertexEndVertex,
      if_pos h1, if_pos h2]
  · simp only [matchPairQuad, Edge.ByStartVertexEndVertex,
      if_pos h1, if_pos h2]

/-- Witness for C3 at concrete inputs: a clean pair bridging the unit
segment up one level gives the two diagonal triangles and the quad, and a
fully coincident pair contributes nothing. -/
theorem edge_matcher_bridging_witness :
    (matchPairTriangulated ⟨fun _ => true, fun _ => true⟩
      ⟨⟨0,0,0⟩, ⟨1,0,0⟩⟩ ⟨⟨0,0,1⟩, ⟨1,0,1⟩⟩ =
      .ok [[⟨⟨0,0,0⟩, ⟨1,0,0⟩⟩, ⟨⟨0,0,0⟩, ⟨1,0,1⟩⟩, ⟨⟨1,0,0⟩, ⟨1,0,1⟩⟩],
           [⟨⟨0,0,1⟩, ⟨1,0,1⟩⟩, ⟨⟨0,0,0⟩, ⟨1,0,1⟩⟩, ⟨⟨0,0,0⟩, ⟨0,0,1⟩⟩]]) ∧
    (matchPairQuad ⟨fun _ => true, fun _ => true⟩
      ⟨⟨0,0,0⟩, ⟨1,0,0⟩⟩ ⟨⟨0,0,1⟩, ⟨1,0,1⟩⟩ =
      .ok [quadFace (⟨⟨0,0,0⟩, ⟨1,0,0⟩⟩, ⟨⟨0,0,1⟩, ⟨1,0,1⟩⟩)]) ∧
    (matchPairTriangulated ⟨fun _ => true, fun _ => true⟩
      ⟨⟨0,0,0⟩, ⟨1,0,0⟩⟩ ⟨⟨0,0,0⟩, ⟨1,0,0⟩⟩ = .ok []) := by
  have h := edge_matcher_bridging ⟨fun _ => true, fun _ => true⟩
    ⟨⟨0,0,0⟩, ⟨1,0,0⟩⟩ ⟨⟨0,0,1⟩, ⟨1,0,1⟩⟩
  have h2 := edge_matcher_bridging ⟨fun _ => true, fun _ => true⟩
    ⟨⟨0,0,0⟩, ⟨1,0,0⟩⟩ ⟨⟨0,0,0⟩, ⟨1,0,0⟩⟩
  refine ⟨h.1 (by decide) (by decide) (by decide) rfl rfl, ?_, (h2.2.2.2 rfl rfl).1⟩
  have hq := h.2.2.1 (by decide) (by decide)
  rw [hq, if_pos rfl]

/-- Counterexample to C1: a three-wire input whose last two wires have
different edge counts (1 versus 2) on which `Cell.ByWires` raises an
uncaught exception (from the degenerate diagonal of the first wire pair,
src/Cell.py 298) instead of returning `None`. -/
theorem byWires_mismatch_may_raise_cex :
    ([⟨⟨1,1,0⟩, ⟨0,0,0⟩⟩] : Wire).length ≠
      ([⟨⟨1,1,0⟩, ⟨0,0,0⟩⟩, ⟨⟨1,1,0⟩, ⟨0,0,0⟩⟩] : Wire).length ∧
    Cell.ByWires ⟨fun _ => true, fun _ => true⟩
      [[⟨⟨0,0,0⟩, ⟨1,0,0⟩⟩], [⟨⟨1,1,0⟩, ⟨0,0,0⟩⟩],
       [⟨⟨1,1,0⟩, ⟨0,0,0⟩⟩, ⟨⟨1,1,0⟩, ⟨0,0,0⟩⟩]] false true = .error () :=
  ⟨by decide, rfl⟩

/-- Helper for C1: the pairwise loft loop returns the early `None` of the
edge-count check whenever some consecutive pair mismatches and every pair
before it has equal counts and bridges without raising. -/
theorem loftBridgeFaces_mismatch (K : Kernel) (tri : Bool) (wa wb : Wire)
    (post : List Wire) (hm : wa.length ≠ wb.length) :
    ∀ pre : List Wire,
      List.Chain' (fun x y => x.length = y.length ∧
        ∃ fs, matchWirePair K tri x y = Except.ok fs) (pre ++ [wa]) →
      loftBridgeFaces K tri (pre ++ wa :: wb :: post) = .ok none := by
  intro pre
  induction pre with
  | nil =>
    intro _
    simp only [List.nil_append, loftBridgeFaces]
    rw [if_neg hm]
  | cons p pre ih =>
    intro hchain
    cases pre with
    | nil =>
      obtain ⟨hlen, fs, hfs⟩ :
          List.length p = List.length wa ∧
            ∃ fs, matchWirePair K tri p wa = Except.ok fs := by
        simpa using hchain
      have hrec := ih (by simp)
      simp only [List.nil_append] at hrec
      simp only [List.cons_append, List.nil_append]
      rw [loftBridgeFaces]
      simp only [if_pos hlen, hfs, hrec]
      rfl
    | cons q pre2 =>
      obtain ⟨⟨hlen, fs, hfs⟩, hchain2⟩ :
          (List.length p = List.length q ∧
            ∃ fs, matchWirePair K tri p q = Except.ok fs) ∧
          List.Chain' (fun x y => List.length x = List.length y ∧
            ∃ fs, matchWirePair K tri x y = Except.ok fs)
            (q :: (pre2 ++ [wa])) := by
        simpa using hchain
      have hrec := ih (by simpa using hchain2)
      simp only [List.cons_append] at hrec ⊢
      rw [loftBridgeFaces]
      simp only [if_pos hlen, hfs, hrec]
      rfl

/-- C1 as amended: `Cell.ByWires` returns `None` (with no exception) on any
wire list containing a consecutive pair with different edge counts,
provided the kernel accepts the two cap faces (here: a kernel accepting all
face constructions) and no pair before the mismatching one raises an
uncaught kernel exception while bridging; in particular, for exactly two
wires with unequal edge counts it always returns `None`. -/
theorem byWires_mismatch_returns_none (cellOk : List Face → Bool)
    (close tri : Bool) (pre : List Wire) (wa wb : Wire) (post : List Wire)
    (hm : wa.length ≠ wb.length)
    (hchain : List.Chain' (fun x y => x.length = y.length ∧
      ∃ fs, matchWirePair ⟨fun _ => true, cellOk⟩ tri x y = Except.ok fs)
      (pre ++ [wa])) :
    Cell.ByWires ⟨fun _ => true, cellOk⟩ (pre ++ wa :: wb :: post) close tri =
      .ok none := by
  have hbridge :=
    loftBridgeFaces_mismatch ⟨fun _ => true, cellOk⟩ tri wa wb post hm pre hchain
  cases pre with
  | nil =>
    simp only [List.nil_append] at hbridge ⊢
    simp only [Cell.ByWires, Face.ByExternalBoundary, hbridge, if_pos]
    rfl
  | cons p pre2 =>
    simp only [List.cons_append] at hbridge ⊢
    simp only [Cell.ByWires, Face.ByExternalBoundary, hbridge, if_pos]
    rfl

/-- Witness for C1 at a concrete input: two wires of one and two edges make
`Cell.ByWires` return `None` without raising. -/
theorem byWires_mismatch_returns_none_witness :
    Cell.ByWires ⟨fun _ => true, fun _ => true⟩
      [[⟨⟨0,0,0⟩, ⟨1,0,0⟩⟩], [⟨⟨0,0,1⟩, ⟨1,0,1⟩⟩, ⟨⟨1,0,1⟩, ⟨0,0,1⟩⟩]]
      false true = .ok none :=
  byWires_mismatch_returns_none (fun _ => true) false true []
    [⟨⟨0,0,0⟩, ⟨1,0,0⟩⟩] [⟨⟨0,0,1⟩, ⟨1,0,1⟩⟩, ⟨⟨1,0,1⟩, ⟨0,0,1⟩⟩] []
    (by decide) (by simp)

/-- Helper for C2: with a kernel accepting all face constructions, the
untriangulated inner loop turns each corresponding edge pair with distinct
corresponding endpoints into exactly its quadrilateral bridging face, in
order. -/
theorem bridgeFacesAux_quads (cellOk : List Face → Bool) :
    ∀ ps : List (Edge × Edge),
      (∀ p ∈ ps, p.1.startVertex ≠ p.2.startVertex ∧
        p.1.endVertex ≠ p.2.endVertex) →
      bridgeFacesAux ⟨fun _ => true, cellOk⟩ false ps =
        .ok (ps.map quadFace) := by
  intro ps
  induction ps with
  | nil => intro _; rfl
  | cons p rest ih =>
    intro h
    obtain ⟨hs, he⟩ := h p (List.mem_cons_self p rest)
    have hrest := ih (fun q hq => h q (List.mem_cons_of_mem _ hq))
    obtain ⟨p1, p2⟩ := p
    have hpair : matchPairQuad ⟨fun _ => true, cellOk⟩ p1 p2 =
        .ok [quadFace (p1, p2)] := by
      simp [matchPairQuad, Edge.ByStartVertexEndVertex, hs, he, quadFace]
    rw [bridgeFacesAux]
    simp only [Bool.false_eq_true, if_false, hpair, hrest]
    rfl

/-- Helper for C2: the face set assembled from the two caps and the
quadrilateral bridging faces has exactly the vertices of the two wires. -/
theorem loftQuads_vertexSet (w1 w2 : Wire) :
    Cell.VertexSet ⟨[w1, w2] ++ (w1.zip w2).map quadFace⟩ =
      Wire.VertexSet w1 ∪ Wire.VertexSet w2 := by
  ext v
  simp only [Cell.VertexSet, Wire.VertexSet, List.mem_toFinset,
    Finset.mem_union, List.mem_flatMap, List.mem_append, List.mem_map,
    List.mem_cons, List.not_mem_nil, or_false, edgeListVertices,
    List.mem_singleton]
  constructor
  · rintro ⟨f, hf, e, he, hv⟩
    rcases hf with (rfl | rfl) | ⟨p, hp, rfl⟩
    · exact Or.inl ⟨e, he, hv⟩
    · exact Or.inr ⟨e, he, hv⟩
    · obtain ⟨hp1, hp2⟩ := List.of_mem_zip hp
      simp only [quadFace, List.mem_cons, List.not_mem_nil, or_false,
        List.mem_singleton] at he
      rcases he with rfl | rfl | rfl | rfl
      · exact Or.inl ⟨p.1, hp1, hv⟩
      · rcases hv with rfl | rfl
        · exact Or.inl ⟨p.1, hp1, Or.inr rfl⟩
        · exact Or.inr ⟨p.2, hp2, Or.inr rfl⟩
      · exact Or.inr ⟨p.2, hp2, hv⟩
      · rcases hv with rfl | rfl
        · exact Or.inl ⟨p.1, hp1, Or.inl rfl⟩
        · exact Or.inr ⟨p.2, hp2, Or.inl rfl⟩
  · rintro (⟨e, he, hv⟩ | ⟨e, he, hv⟩)
    · exact ⟨w1, Or.inl (Or.inl rfl), e, he, hv⟩
    · exact ⟨w2, Or.inl (Or.inr rfl), e, he, hv⟩

/-- C2: for two wires of equal edge count whose corresponding endpoints are
pairwise distinct, `Cell.ByWires` with `triangulate=False` and
`close=False` (and a kernel accepting all face constructions) assembles
exactly the two cap faces from the first and last wire plus exactly one
quadrilateral bridging face per corresponding edge pair — `n` bridging
faces for `n` edges — and submits exactly that face set to `Cell.ByFaces`;
whenever the kernel closes those faces into a cell, the vertices of the
cell are exactly the union of the vertices of the two wires. -/
theorem byWires_untriangulated_two_wires (cellOk : List Face → Bool)
    (w1 w2 : Wire) (hlen : w1.length = w2.length)
    (hcorr : ∀ p ∈ w1.zip w2, p.1.startVertex ≠ p.2.startVertex ∧
      p.1.endVertex ≠ p.2.endVertex) :
    Cell.ByWires ⟨fun _ => true, cellOk⟩ [w1, w2] false false =
      .ok (Cell.ByFaces ⟨fun _ => true, cellOk⟩
        ([w1, w2] ++ (w1.zip w2).map quadFace)) ∧
    ((w1.zip w2).map quadFace).length = w1.length ∧
    (∀ c, Cell.ByFaces ⟨fun _ => true, cellOk⟩
        ([w1, w2] ++ (w1.zip w2).map quadFace) = some c →
      Cell.VertexSet c = Wire.VertexSet w1 ∪ Wire.VertexSet w2) := by
  refine ⟨?_, ?_, ?_⟩
  · have hq := bridgeFacesAux_quads cellOk (w1.zip w2) hcorr
    have hbase : loftBridgeFaces ⟨fun _ => true, cellOk⟩ false [w2] =
      .ok (some []) := rfl
    rw [Cell.ByWires]
    rw [loftBridgeFaces]
    simp only [matchWirePair, hq, hlen, if_pos, hbase,
      Face.ByExternalBoundary, List.getLast, Bool.false_eq_true, if_false]
    show Except.ok (Cell.ByFaces ⟨fun _ => true, cellOk⟩
      (w1 :: w2 :: (List.map quadFace (List.zip w1 w2) ++ []))) = _
    rw [List.append_nil]
    rfl
  · simp [List.length_zip, hlen]
  · intro c hc
    rw [Cell.ByFaces] at hc
    split at hc
    · injection hc with hc2
      rw [← hc2]
      exact loftQuads_vertexSet w1 w2
    · cases hc

/-- Witness for C2 at a concrete input: lofting a two-edge segment wire to
its copy one level up yields the two caps plus two quadrilaterals, and the
vertex set of the resulting cell is the union of the two wire vertex
sets. -/
theorem byWires_untriangulated_two_wires_witness :
    (Cell.ByWires ⟨fun _ => true, fun _ => true⟩
      [[⟨⟨0,0,0⟩, ⟨1,0,0⟩⟩, ⟨⟨1,0,0⟩, ⟨0,0,0⟩⟩],
       [⟨⟨0,0,1⟩, ⟨1,0,1⟩⟩, ⟨⟨1,0,1⟩, ⟨0,0,1⟩⟩]] false false =
      .ok (Cell.ByFaces ⟨fun _ => true, fun _ => true⟩
        ([[⟨⟨0,0,0⟩, ⟨1,0,0⟩⟩, ⟨⟨1,0,0⟩, ⟨0,0,0⟩⟩],
          [⟨⟨0,0,1⟩, ⟨1,0,1⟩⟩, ⟨⟨1,0,1⟩, ⟨0,0,1⟩⟩]] ++
         (([⟨⟨0,0,0⟩, ⟨1,0,0⟩⟩, ⟨⟨1,0,0⟩, ⟨0,0,0⟩⟩] : Wire).zip
           [⟨⟨0,0,1⟩, ⟨1,0,1⟩⟩, ⟨⟨1,0,1⟩, ⟨0,0,1⟩⟩]).map quadFace))) ∧
    ((([⟨⟨0,0,0⟩, ⟨1,0,0⟩⟩, ⟨⟨1,0,0⟩, ⟨0,0,0⟩⟩] : Wire).zip
       [⟨⟨0,0,1⟩, ⟨1,0,1⟩⟩, ⟨⟨1,0,1⟩, ⟨0,0,1⟩⟩]).map quadFace).length = 2 ∧
    Cell.VertexSet
        ⟨[[⟨⟨0,0,0⟩, ⟨1,0,0⟩⟩, ⟨⟨1,0,0⟩, ⟨0,0,0⟩⟩],
          [⟨⟨0,0,1⟩, ⟨1,0,1⟩⟩, ⟨⟨1,0,1⟩, ⟨0,0,1⟩⟩]] ++
         (([⟨⟨0,0,0⟩, ⟨1,0,0⟩⟩, ⟨⟨1,0,0⟩, ⟨0,0,0⟩⟩] : Wire).zip
           [⟨⟨0,0,1⟩, ⟨1,0,1⟩⟩, ⟨⟨1,0,1⟩, ⟨0,0,1⟩⟩]).map quadFace⟩ =
      Wire.VertexSet [⟨⟨0,0,0⟩, ⟨1,0,0⟩⟩, ⟨⟨1,0,0⟩, ⟨0,0,0⟩⟩] ∪
        Wire.VertexSet [⟨⟨0,0,1⟩, ⟨1,0,1⟩⟩, ⟨⟨1,0,1⟩, ⟨0,0,1⟩⟩] := by
  have h := byWires_untriangulated_two_wires (fun _ => true)
    [⟨⟨0,0,0⟩, ⟨1,0,0⟩⟩, ⟨⟨1,0,0⟩, ⟨0,0,0⟩⟩]
    [⟨⟨0,0,1⟩, ⟨1,0,1⟩⟩, ⟨⟨1,0,1⟩, ⟨0,0,1⟩⟩] (by decide) (by decide)
  exact ⟨h.1, h.2.1, h.2.2 _ rfl⟩
